import Mathlib

/-!
Verification development for the openrouter-headless-agent repository.

The TypeScript sources are shallowly embedded here:
* `src/src/models.ts` (`asNumber`, `pickFreeModelId`) — model catalog and
  selection heuristic;
* the CLI wizard file (`isFreeModel`, `modelPricePer1M` usage);
* the headless entry file (`formatMaybeJsonError`);
* the agent file (`Agent.send`, `Agent.getMessages`, the stream loop).

JavaScript strings are modelled as Lean `String` (code-point sequences);
JS numbers used by the pricing/context logic are modelled as `ℚ`/`Int`
(the code never relies on floating-point rounding for these claims).
-/

namespace OpenRouterAgent

/-! ## JS number parsing

`Number(s)` on the plain decimal string literals that appear in pricing
fields.  A finite result is modelled as a scaled decimal `mant / 10 ^ scale`
(this keeps every operation kernel-computable; `DecNum.toQ` is the numeric
value); `none` models `NaN` (a non-numeric string).  The JS `Number` accepts
more lexical forms (whitespace, hex, exponents); pricing strings in the
repository are plain decimal literals, which is the fragment modelled here.
`Number("") = 0` is kept faithfully. -/

/-- A finite decimal value `mant / 10 ^ scale`. -/
structure DecNum where
  mant : ℤ
  scale : ℕ
deriving DecidableEq

/-- The rational value of a scaled decimal. -/
def DecNum.toQ (v : DecNum) : ℚ := (v.mant : ℚ) / 10 ^ v.scale

/-- The JS comparison `v === 0` on a parsed decimal. -/
def DecNum.isZero (v : DecNum) : Bool := v.mant == 0

/-- A scaled decimal is zero exactly when its mantissa is, so `DecNum.isZero`
is the value-level comparison `=== 0` of the source. -/
theorem DecNum.isZero_iff_toQ (v : DecNum) : v.isZero = true ↔ v.toQ = 0 := by
  have h10 : ((10 : ℚ) ^ v.scale) ≠ 0 := pow_ne_zero _ (by norm_num)
  simp [DecNum.isZero, DecNum.toQ, div_eq_zero_iff, h10]

def digitVal (c : Char) : ℕ := c.toNat - 48

def decDigits (cs : List Char) : ℕ := cs.foldl (fun a c => 10 * a + digitVal c) 0

def allDigits (cs : List Char) : Bool := cs.all Char.isDigit

def jsNumber (s : String) : Option DecNum :=
  match s.data with
  | [] => some ⟨0, 0⟩
  | cs =>
    let neg : Bool := match cs with | '-' :: _ => true | _ => false
    let body : List Char := match cs with | '-' :: r => r | '+' :: r => r | r => r
    let sign : ℤ → ℤ := fun n => if neg then -n else n
    let intPart := body.takeWhile (· ≠ '.')
    match body.dropWhile (· ≠ '.') with
    | [] =>
      if allDigits intPart && !intPart.isEmpty then
        some ⟨sign (decDigits intPart), 0⟩
      else none
    | '.' :: frac =>
      if allDigits intPart && allDigits frac && (!intPart.isEmpty || !frac.isEmpty) then
        some ⟨sign (decDigits intPart * 10 ^ frac.length + decDigits frac), frac.length⟩
      else none
    | _ => none

/-! ## Model catalog (src/src/models.ts) -/

structure Pricing where
  prompt : Option String
  completion : Option String
  image : Option String
  request : Option String
deriving DecidableEq

structure TopProvider where
  is_moderated : Option Bool
deriving DecidableEq

structure OpenRouterModel where
  id : String
  context_length : Option Int
  pricing : Option Pricing
  top_provider : Option TopProvider
deriving DecidableEq

/-- `asNumber` from `src/src/models.ts`, applied to an optional string field
(the declared type of pricing fields).  `none` models `NaN`: the field is
absent (`asNumber(undefined)`) or does not parse to a finite number. -/
def asNumber (x : Option String) : Option DecNum := x.bind jsNumber

/-- `m.pricing?.prompt` -/
def promptField (m : OpenRouterModel) : Option String := m.pricing.bind Pricing.prompt

/-- `m.pricing?.completion` -/
def completionField (m : OpenRouterModel) : Option String := m.pricing.bind Pricing.completion

/-- `m.pricing?.request` -/
def requestField (m : OpenRouterModel) : Option String := m.pricing.bind Pricing.request

/-- The `isFree` test inside the filter of `pickFreeModelId`:
`(Number.isFinite(prompt) ? prompt === 0 : true) && ...` for the three
fields prompt, completion, request. -/
def isFreePricing (m : OpenRouterModel) : Bool :=
  (match asNumber (promptField m) with | some q => q.isZero | none => true) &&
  (match asNumber (completionField m) with | some q => q.isZero | none => true) &&
  (match asNumber (requestField m) with | some q => q.isZero | none => true)

/-- `(m.context_length ?? 0) >= minContext` -/
def ctxOk (minContext : Int) (m : OpenRouterModel) : Bool :=
  minContext ≤ m.context_length.getD 0

/-- `allowModerated ? true : !(m.top_provider?.is_moderated ?? false)` -/
def moderationOk (allowModerated : Bool) (m : OpenRouterModel) : Bool :=
  allowModerated || !((m.top_provider.bind TopProvider.is_moderated).getD false)

/-- The whole predicate of `models.filter` in `pickFreeModelId`. -/
def survives (minContext : Int) (allowModerated : Bool) (m : OpenRouterModel) : Bool :=
  isFreePricing m && ctxOk minContext m && moderationOk allowModerated m

/-- `needle.isPrefixOf`-based substring containment on code points:
JS `hay.includes(needle)`. -/
def containsSub (needle : List Char) : List Char → Bool
  | [] => needle.isEmpty
  | c :: t => needle.isPrefixOf (c :: t) || containsSub needle t

/-- JS `s.includes(needle)`. -/
def jsIncludes (s needle : String) : Bool := containsSub needle.data s.data

/-- ASCII lower-casing of one character (the fragment of JS `toLowerCase`
exercised by model ids). -/
def jsCharToLower (c : Char) : Char :=
  if 65 ≤ c.toNat && c.toNat ≤ 90 then Char.ofNat (c.toNat + 32) else c

/-- JS `s.toLowerCase()` on ASCII strings. -/
def jsToLower (s : String) : String := ⟨s.data.map jsCharToLower⟩

/-- The predicate of `free.find((m) => m.id.toLowerCase().includes(needle.toLowerCase()))`. -/
def idHasNeedle (needle : String) (m : OpenRouterModel) : Bool :=
  jsIncludes (jsToLower m.id) (jsToLower needle)

/-- The `for (const needle of preferIdIncludes)` loop of `pickFreeModelId`:
returns the first `free.find` hit for the first needle that has one. -/
def preferPick (free : List OpenRouterModel) : List String → Option OpenRouterModel
  | [] => none
  | n :: rest =>
    match free.find? (idHasNeedle n) with
    | some m => some m
    | none => preferPick free rest

/-- `m.context_length ?? 0` as used when scoring. -/
def ctxOf (m : OpenRouterModel) : Int := m.context_length.getD 0

/-- `targetContext != null ? Math.abs(ctx - targetContext) : 0` -/
def distOf (targetContext : Option Int) (m : OpenRouterModel) : ℕ :=
  match targetContext with
  | some t => (ctxOf m - t).natAbs
  | none => 0

/-- The sort comparator of `pickFreeModelId` as a boolean `≤` relation:
`scoreLe t a b` iff the comparator puts `a` no later than `b`
(`a.distance - b.distance` when a target is set and distances differ,
else `b.ctx - a.ctx`). -/
def scoreLe (targetContext : Option Int) (a b : OpenRouterModel) : Bool :=
  if targetContext.isSome && (distOf targetContext a != distOf targetContext b) then
    decide (distOf targetContext a ≤ distOf targetContext b)
  else
    decide (ctxOf b ≤ ctxOf a)

def defaultModelId : String := "openrouter/auto"

/-- Options of `pickFreeModelId` (all optional, defaults applied inside,
as in the source). -/
structure PickOpts where
  minContext : Option Int
  targetContext : Option Int
  allowModerated : Option Bool
  preferIdIncludes : Option (List String)
deriving DecidableEq

/-- The `free` list computed by `pickFreeModelId` for a catalog snapshot. -/
def freeOf (models : List OpenRouterModel) (opts : PickOpts) : List OpenRouterModel :=
  models.filter (survives (opts.minContext.getD 0) (opts.allowModerated.getD true))

/-- `pickFreeModelId` from `src/src/models.ts`, with the fetched catalog as an
explicit argument (the fetch is an external effect).  The stable JS
`Array.prototype.sort` on the scored list followed by `scored[0]` is embedded
as `List.mergeSort` (stable) with the `≤` relation of the comparator followed by
taking the head. -/
def pickFreeModelId (models : List OpenRouterModel) (opts : PickOpts) : String :=
  let targetContext := opts.targetContext
  let prefer := opts.preferIdIncludes.getD ["free", "trial"]
  let free := freeOf models opts
  if free.isEmpty then defaultModelId
  else
    match preferPick free prefer with
    | some m => m.id
    | none =>
      match free.mergeSort (scoreLe targetContext) with
      | [] => defaultModelId
      | m :: _ => m.id

/-- `isFreeModel` from the CLI wizard file: requires a pricing object,
finite `Number(prompt)`, `Number(completion)` and `Number(request ?? 0)`,
all equal to zero. -/
def isFreeModel (m : OpenRouterModel) : Bool :=
  match m.pricing with
  | none => false
  | some p =>
    match asNumber p.prompt, asNumber p.completion,
          (match p.request with | none => some (⟨0, 0⟩ : DecNum) | some s => jsNumber s) with
    | some a, some b, some c => a.isZero && b.isZero && c.isZero
    | _, _, _ => false

/-! ## Helper lemmas about the selection heuristic -/

/-- The free test exactly as claim C4 words it (spec-side predicate, used to
compare the two code-side filters): every pricing field that is present and
numeric equals zero. -/
def presentNumericAllZero (m : OpenRouterModel) : Prop :=
  (∀ v : DecNum, asNumber (promptField m) = some v → v.toQ = 0) ∧
  (∀ v : DecNum, asNumber (completionField m) = some v → v.toQ = 0) ∧
  (∀ v : DecNum, asNumber (requestField m) = some v → v.toQ = 0)

theorem preferPick_spec (free : List OpenRouterModel) :
    ∀ needles : List String,
      (∃ n ∈ needles, ∃ m ∈ free, idHasNeedle n m = true) →
      ∃ pre n post m,
        needles = pre ++ n :: post ∧
        (∀ q ∈ pre, free.find? (idHasNeedle q) = none) ∧
        free.find? (idHasNeedle n) = some m ∧
        preferPick free needles = some m := by
  intro needles
  induction needles with
  | nil => rintro ⟨n, hn, -⟩; cases hn
  | cons n rest ih =>
    intro hex
    rcases hfind : free.find? (idHasNeedle n) with - | m
    · have hnone : ∀ m ∈ free, ¬ idHasNeedle n m = true := List.find?_eq_none.mp hfind
      have hex0 : ∃ q ∈ rest, ∃ m ∈ free, idHasNeedle q m = true := by
        rcases hex with ⟨q, hq, m, hm, hqm⟩
        rcases List.mem_cons.mp hq with rfl | hq0
        · exact absurd hqm (hnone m hm)
        · exact ⟨q, hq0, m, hm, hqm⟩
      rcases ih hex0 with ⟨pre, n0, post, m, hsplit, hpre, hfind0, hpick⟩
      refine ⟨n :: pre, n0, post, m, by simp [hsplit], ?_, hfind0, ?_⟩
      · intro q hq
        rcases List.mem_cons.mp hq with rfl | h
        · exact hfind
        · exact hpre q h
      · simpa [preferPick, hfind] using hpick
    · exact ⟨[], n, rest, m, rfl, by simp, hfind, by simp [preferPick, hfind]⟩

theorem preferPick_eq_none (free : List OpenRouterModel) :
    ∀ needles : List String,
      (∀ n ∈ needles, free.find? (idHasNeedle n) = none) →
      preferPick free needles = none := by
  intro needles
  induction needles with
  | nil => intro _; rfl
  | cons n rest ih =>
    intro h
    have h1 : free.find? (idHasNeedle n) = none := h n (List.mem_cons_self n rest)
    have h2 : preferPick free rest = none := ih fun q hq => h q (List.mem_cons_of_mem n hq)
    simp [preferPick, h1, h2]

theorem scoreLe_eq_true_iff (t? : Option Int) (a b : OpenRouterModel) :
    scoreLe t? a b = true ↔
      (match t? with
       | some t => (ctxOf a - t).natAbs < (ctxOf b - t).natAbs ∨
           ((ctxOf a - t).natAbs = (ctxOf b - t).natAbs ∧ ctxOf b ≤ ctxOf a)
       | none => ctxOf b ≤ ctxOf a) := by
  rcases t? with - | t
  · simp [scoreLe]
  · simp only [scoreLe, distOf]
    split_ifs with h
    · simp only [Option.isSome_some, Bool.true_and, bne_iff_ne, ne_eq] at h
      simp only [decide_eq_true_eq]
      omega
    · simp only [Option.isSome_some, Bool.true_and, bne_iff_ne, ne_eq, not_not] at h
      simp only [decide_eq_true_eq]
      omega

theorem scoreLe_total (t? : Option Int) (a b : OpenRouterModel) :
    scoreLe t? a b || scoreLe t? b a := by
  simp only [Bool.or_eq_true, scoreLe_eq_true_iff]
  rcases t? with - | t
  · omega
  · omega

theorem scoreLe_trans (t? : Option Int) (a b c : OpenRouterModel) :
    scoreLe t? a b → scoreLe t? b c → scoreLe t? a c := by
  simp only [scoreLe_eq_true_iff]
  rcases t? with - | t
  · omega
  · omega

/-! ## Claims about the selection heuristic -/

/-- Claim C4 (amended): the free filter inside `pickFreeModelId` passes a
model iff every present-and-numeric pricing field equals zero (absent or
non-numeric fields never disqualify), while the wizard-side `isFreeModel`
is stricter: it requires a pricing object whose prompt and completion are
present, numeric and zero, and whose request, when present, is numeric and
zero (only an absent request defaults to zero). -/
theorem free_filter_characterization (m : OpenRouterModel) :
    (isFreePricing m = true ↔ presentNumericAllZero m) ∧
    (isFreeModel m = true ↔
      ∃ p, m.pricing = some p ∧
        (∃ v, asNumber p.prompt = some v ∧ v.toQ = 0) ∧
        (∃ v, asNumber p.completion = some v ∧ v.toQ = 0) ∧
        (∀ s, p.request = some s → ∃ v, jsNumber s = some v ∧ v.toQ = 0)) := by
  have h00 : (⟨0, 0⟩ : DecNum).isZero = true := rfl
  constructor
  · unfold isFreePricing presentNumericAllZero
    rcases h1 : asNumber (promptField m) with - | v1 <;>
    rcases h2 : asNumber (completionField m) with - | v2 <;>
    rcases h3 : asNumber (requestField m) with - | v3 <;>
    simp [DecNum.isZero_iff_toQ, and_assoc]
  · unfold isFreeModel
    rcases hp : m.pricing with - | p
    · simp
    · rcases h1 : asNumber p.prompt with - | v1 <;>
      rcases h2 : asNumber p.completion with - | v2 <;>
      rcases hr : p.request with - | s
      · simp [hp, h1, h2, hr]
      · rcases hjs : jsNumber s with - | v3 <;> simp [hp, h1, h2, hr, hjs]
      · simp [hp, h1, h2, hr]
      · rcases hjs : jsNumber s with - | v3 <;> simp [hp, h1, h2, hr, hjs]
      · simp [hp, h1, h2, hr]
      · rcases hjs : jsNumber s with - | v3 <;> simp [hp, h1, h2, hr, hjs]
      · simp [hp, h1, h2, hr, h00, DecNum.isZero_iff_toQ, and_assoc]
      · rcases hjs : jsNumber s with - | v3 <;>
          simp [hp, h1, h2, hr, hjs, DecNum.isZero_iff_toQ, and_assoc]

def noPricingModel : OpenRouterModel := ⟨"acme/mystery", some 8000, none, none⟩

/-- Claim C4 counterexample: a model without a pricing object has no present
numeric pricing field at all (so the claim says it passes as free), yet the
wizard-side `isFreeModel` — one of the two cited free filters — rejects it. -/
theorem isFreeModel_vs_claim_counterexample :
    ¬ (isFreeModel noPricingModel = true ↔ presentNumericAllZero noPricingModel) := by
  intro h
  have hall : presentNumericAllZero noPricingModel := by
    refine ⟨?_, ?_, ?_⟩ <;>
      · intro v hv
        simp [asNumber, promptField, completionField, requestField, noPricingModel] at hv
  have hfree := h.mpr hall
  simp [isFreeModel, noPricingModel] at hfree

/-- Claim C7: when no candidate survives the filter, `pickFreeModelId`
returns the documented fallback identifier and never fails. -/
theorem noCandidate_fallback (models : List OpenRouterModel) (opts : PickOpts)
    (h : freeOf models opts = []) :
    pickFreeModelId models opts = defaultModelId := by
  unfold pickFreeModelId
  simp [h]

def paidOnlyCatalog : List OpenRouterModel :=
  [⟨"acme/paid", some 8000, some ⟨some "0.001", some "0.002", none, none⟩, none⟩]

def noPrefOpts : PickOpts := ⟨none, none, none, some []⟩

/-- Witness for claim C7 at a concrete catalog whose only model is paid. -/
theorem noCandidate_fallback_witness :
    freeOf paidOnlyCatalog noPrefOpts = [] ∧
    pickFreeModelId paidOnlyCatalog noPrefOpts = defaultModelId :=
  ⟨by decide, noCandidate_fallback _ _ (by decide)⟩

/-- Claim C5: with preferred id substrings, `pickFreeModelId` returns the id
of the first surviving candidate (in catalog order) that contains the first
substring for which any match exists — substrings tried in order, not merged
— regardless of the ranking by context distance (the statement holds for
every `targetContext` inside `opts`). -/
theorem preferred_substring_selection (models : List OpenRouterModel) (opts : PickOpts)
    (needles : List String) (hneedles : opts.preferIdIncludes = some needles)
    (hmatch : ∃ n ∈ needles, ∃ m ∈ freeOf models opts, idHasNeedle n m = true) :
    ∃ pre n post m,
      needles = pre ++ n :: post ∧
      (∀ q ∈ pre, (freeOf models opts).find? (idHasNeedle q) = none) ∧
      (∃ fpre fpost, freeOf models opts = fpre ++ m :: fpost ∧
        idHasNeedle n m = true ∧ ∀ m0 ∈ fpre, idHasNeedle n m0 = false) ∧
      pickFreeModelId models opts = m.id := by
  rcases preferPick_spec (freeOf models opts) needles hmatch with
    ⟨pre, n, post, m, h1, h2, h3, h4⟩
  have hmem : m ∈ freeOf models opts := List.mem_of_find?_eq_some h3
  have hne : (freeOf models opts).isEmpty = false := by
    rw [List.isEmpty_eq_false]
    intro hnil
    rw [hnil] at hmem
    cases hmem
  refine ⟨pre, n, post, m, h1, h2, ?_, ?_⟩
  · rcases List.find?_eq_some.mp h3 with ⟨hpm, fpre, fpost, heq, hprev⟩
    refine ⟨fpre, fpost, heq, hpm, fun m0 hm0 => ?_⟩
    have := hprev m0 hm0
    simpa using this
  · unfold pickFreeModelId
    simp [hneedles, hne, h4]

def substringCatalog : List OpenRouterModel :=
  [⟨"acme/alpha", some 16000, some ⟨some "0", some "0", none, none⟩, none⟩,
   ⟨"acme/beta-free", some 4000, some ⟨some "0", some "0", none, none⟩, none⟩]

def substringOpts : PickOpts := ⟨none, some 16000, none, some ["free"]⟩

/-- Witness for claim C5: exactly one surviving candidate id contains
"free"; it is returned although the other candidate is nearer the target
context. -/
theorem preferred_substring_selection_witness :
    (∃ pre n post m,
      (["free"] : List String) = pre ++ n :: post ∧
      (∀ q ∈ pre, (freeOf substringCatalog substringOpts).find? (idHasNeedle q) = none) ∧
      (∃ fpre fpost, freeOf substringCatalog substringOpts = fpre ++ m :: fpost ∧
        idHasNeedle n m = true ∧ ∀ m0 ∈ fpre, idHasNeedle n m0 = false) ∧
      pickFreeModelId substringCatalog substringOpts = m.id) ∧
    pickFreeModelId substringCatalog substringOpts = "acme/beta-free" :=
  ⟨preferred_substring_selection substringCatalog substringOpts ["free"] rfl (by decide),
   by decide⟩

/-- Claim C6: when no preferred substring applies and some candidate
survives, `pickFreeModelId` returns a candidate of minimal absolute
context-length distance from the target (ties broken by larger context
length), and of maximal context length when no target is given; a missing
context length counts as 0 through `ctxOf`. -/
theorem ranking_selection (models : List OpenRouterModel) (opts : PickOpts)
    (hnopref : ∀ n ∈ opts.preferIdIncludes.getD ["free", "trial"],
      (freeOf models opts).find? (idHasNeedle n) = none)
    (hne : freeOf models opts ≠ []) :
    ∃ m, m ∈ freeOf models opts ∧
      pickFreeModelId models opts = m.id ∧
      ∀ m0 ∈ freeOf models opts,
        match opts.targetContext with
        | some t => (ctxOf m - t).natAbs < (ctxOf m0 - t).natAbs ∨
            ((ctxOf m - t).natAbs = (ctxOf m0 - t).natAbs ∧ ctxOf m0 ≤ ctxOf m)
        | none => ctxOf m0 ≤ ctxOf m := by
  have hpick : preferPick (freeOf models opts) (opts.preferIdIncludes.getD ["free", "trial"]) =
      none := preferPick_eq_none _ _ hnopref
  have hperm : List.Perm ((freeOf models opts).mergeSort (scoreLe opts.targetContext))
      (freeOf models opts) := List.mergeSort_perm _ _
  have hsorted : ((freeOf models opts).mergeSort (scoreLe opts.targetContext)).Pairwise
      (fun a b => scoreLe opts.targetContext a b) :=
    List.sorted_mergeSort (scoreLe_trans opts.targetContext) (scoreLe_total opts.targetContext) _
  have hne2 : (freeOf models opts).isEmpty = false := List.isEmpty_eq_false.mpr hne
  cases hs : (freeOf models opts).mergeSort (scoreLe opts.targetContext) with
  | nil =>
    rw [hs] at hperm
    exact absurd (List.nil_perm.mp hperm) hne
  | cons m tail =>
    rw [hs] at hperm hsorted
    have hm : m ∈ freeOf models opts := hperm.mem_iff.mp (List.mem_cons_self m tail)
    refine ⟨m, hm, ?_, ?_⟩
    · unfold pickFreeModelId
      simp [hne2, hpick, hs]
    · intro m0 hm0
      have hm0s : m0 = m ∨ m0 ∈ tail :=
        List.mem_cons.mp (hperm.mem_iff.mpr hm0)
      have hrel : scoreLe opts.targetContext m m0 = true := by
        rcases hm0s with rfl | htail
        · have := scoreLe_total opts.targetContext m0 m0
          simpa using this
        · exact (List.pairwise_cons.mp hsorted).1 m0 htail
      have := (scoreLe_eq_true_iff opts.targetContext m m0).mp hrel
      exact this

def rankingCatalog : List OpenRouterModel :=
  [⟨"acme/free20k", some 20000, some ⟨some "0", some "0", none, some "0"⟩, some ⟨some false⟩⟩,
   ⟨"acme/paid8k", some 8000, some ⟨some "0.003", some "0.006", none, none⟩, some ⟨some false⟩⟩]

def rankingOpts : PickOpts := ⟨some 8000, some 16000, some false, some []⟩

/-- Witness for claim C6 at the spec example: one free model of context
20000 and one paid model of context 8000, minimum 8000, target 16000,
moderated excluded, no preferred substrings. -/
theorem ranking_selection_witness :
    (∃ m, m ∈ freeOf rankingCatalog rankingOpts ∧
      pickFreeModelId rankingCatalog rankingOpts = m.id ∧
      ∀ m0 ∈ freeOf rankingCatalog rankingOpts,
        match rankingOpts.targetContext with
        | some t => (ctxOf m - t).natAbs < (ctxOf m0 - t).natAbs ∨
            ((ctxOf m - t).natAbs = (ctxOf m0 - t).natAbs ∧ ctxOf m0 ≤ ctxOf m)
        | none => ctxOf m0 ≤ ctxOf m) ∧
    pickFreeModelId rankingCatalog rankingOpts = "acme/free20k" :=
  ⟨ranking_selection rankingCatalog rankingOpts (by decide) (by decide), by
    have hfree : freeOf rankingCatalog rankingOpts =
        [⟨"acme/free20k", some 20000, some ⟨some "0", some "0", none, some "0"⟩,
          some ⟨some false⟩⟩] := by decide
    simp [pickFreeModelId, hfree, preferPick]⟩

/-! ## JSON values

The result type of the platform primitive `JSON.parse`; the parser itself is
a parameter of the embedding (`parseJson`), `none` modelling a thrown
`SyntaxError`. -/

inductive Json where
  | null
  | bool (b : Bool)
  | num (q : ℚ)
  | str (s : String)
  | arr (elems : List Json)
  | obj (fields : List (String × Json))

/-! ## The Agent (agent file, `Agent.send` and friends) -/

inductive Role where
  | user
  | assistant
  | system
deriving DecidableEq

structure Message where
  role : Role
  content : String
deriving DecidableEq

/-- One entry of an item content array (`{ type, text? }`); a `none` text
models an object without a `text` key (the `'text' in textContent` check). -/
structure ContentPart where
  type : String
  text : Option String
deriving DecidableEq

/-- A streamed output item, as consumed by the `switch` in `Agent.send`.
Ids that the code never reads are omitted except for the message id, which
claim C1 is about. -/
inductive StreamItem where
  | message (id : String) (content : Option (List ContentPart))
  | functionCall (name : String) (status : String) (argumentsJson : Option String)
  | functionCallOutput (callId : String) (output : String)
  | reasoning (content : Option (List ContentPart))
  | other (type : String)
deriving DecidableEq

/-- The events of `AgentEvents`, in emission order. -/
inductive AgentEvent where
  | messageUser (m : Message)
  | messageAssistant (m : Message)
  | itemUpdate (item : StreamItem)
  | streamStart
  | streamDelta (delta : String) (accumulated : String)
  | streamEnd (fullText : String)
  | toolCall (name : String) (args : Json)
  | toolResult (callId : String) (output : String)
  | reasoningUpdate (text : String)
  | thinkingStart
  | thinkingEnd
  | errorEvent (e : String)

/-- `item.content?.find((c) => c.type === ty)` -/
def findPart (ty : String) (content : Option (List ContentPart)) : Option ContentPart :=
  content.bind (List.find? fun c => c.type == ty)

/-- JS `s.slice(n)` on code points (empty when `n` exceeds the length). -/
def jsSlice (s : String) (n : ℕ) : String := ⟨s.data.drop n⟩

/-- The `switch (item.type)` body of the streaming loop: given the current
`fullText` accumulator, produce the new accumulator and the events emitted
for this item, or the error thrown (`JSON.parse` failure on completed
function-call arguments). -/
def stepItem (parseJson : String → Option Json) (fullText : String) :
    StreamItem → Except String (String × List AgentEvent)
  | .message _ content =>
    match findPart "output_text" content with
    | some part =>
      match part.text with
      | some newText =>
        if newText != fullText then
          .ok (newText, [.streamDelta (jsSlice newText fullText.length) newText])
        else .ok (fullText, [])
      | none => .ok (fullText, [])
    | none => .ok (fullText, [])
  | .functionCall name status argumentsJson =>
    if status == "completed" then
      let argStr := match argumentsJson with
        | none => "{}"
        | some s => if s == "" then "{}" else s
      match parseJson argStr with
      | some args => .ok (fullText, [.toolCall name args])
      | none => .error "SyntaxError: Unexpected token in JSON"
    else .ok (fullText, [])
  | .functionCallOutput callId output => .ok (fullText, [.toolResult callId output])
  | .reasoning content =>
    match findPart "reasoning_text" content with
    | some part =>
      match part.text with
      | some t => .ok (fullText, [.reasoningUpdate t])
      | none => .ok (fullText, [])
    | none => .ok (fullText, [])
  | .other _ => .ok (fullText, [])

/-- The `for await (const item of result.getItemsStream())` loop: events in
emission order (an `item:update` first for every item) and the final
accumulator, or the error that aborted the loop. -/
def runStream (parseJson : String → Option Json) :
    List StreamItem → String → List AgentEvent × Except String String
  | [], fullText => ([], .ok fullText)
  | item :: rest, fullText =>
    match stepItem parseJson fullText item with
    | .error e => ([.itemUpdate item], .error e)
    | .ok (fullText2, evs) =>
      let (evs2, r) := runStream parseJson rest fullText2
      (.itemUpdate item :: (evs ++ evs2), r)

/-- What one provider call delivers: the fragment stream yields `items` and
then either completes or throws `streamError`; `finalText` models
`result.getText()`.  A provider call that throws before streaming is the
case `items = []`, `streamError = some e`. -/
structure ProviderResult where
  items : List StreamItem
  streamError : Option String
  finalText : Except String String

/-- Everything observable from one `Agent.send` call: the history list after
the call, the events in emission order, the `input` passed to the provider
call, and the returned/thrown result. -/
structure SendResult where
  history : List Message
  events : List AgentEvent
  sentInput : List Message
  result : Except String String

/-- The overall outcome of the `try` block of `Agent.send`: a stream-loop
throw, then a mid-stream provider throw, then — when no message text was
accumulated (`!fullText`) — the awaited `getText()`, else the accumulated
text. -/
def callOutcome (streamRes : Except String String) (streamError : Option String)
    (finalText : Except String String) : Except String String :=
  match streamRes with
  | .error e => .error e
  | .ok fullText =>
    match streamError with
    | some e => .error e
    | none => if fullText == "" then finalText else .ok fullText

/-- The exit paths of `Agent.send`: the catch block (emit `error`, rethrow,
history left at `messages1`) and the success path (append the assistant
message, emit `stream:end` and `message:assistant`); `thinking:end` is
emitted by the `finally` in both. -/
def finishSend (messages1 : List Message) (pre streamEvents : List AgentEvent) :
    Except String String → SendResult
  | .error e =>
    ⟨messages1, pre ++ streamEvents ++ [.errorEvent e, .thinkingEnd], messages1, .error e⟩
  | .ok t =>
    ⟨messages1 ++ [⟨.assistant, t⟩],
     pre ++ streamEvents ++ [.streamEnd t, .messageAssistant ⟨.assistant, t⟩, .thinkingEnd],
     messages1, .ok t⟩

/-- `Agent.send` (agent file lines 71-145) over explicit state: push the user
message, call the provider with the full history, reduce the stream
(`runStream`), combine the failure sources (`callOutcome`) and finish
(`finishSend`). -/
def send (parseJson : String → Option Json) (history : List Message) (content : String)
    (pr : ProviderResult) : SendResult :=
  finishSend (history ++ [⟨.user, content⟩])
    [.messageUser ⟨.user, content⟩, .thinkingStart, .streamStart]
    (runStream parseJson pr.items "").1
    (callOutcome (runStream parseJson pr.items "").2 pr.streamError pr.finalText)

/-- The texts carried by message items that have an `output_text` part with
a `text`, in stream order (all ids merged). -/
def messageTexts (items : List StreamItem) : List String :=
  items.filterMap fun item =>
    match item with
    | .message _ content =>
      match findPart "output_text" content with
      | some part => part.text
      | none => none
    | _ => none

/-- The texts carried by message items with the given id, in stream order. -/
def textsForId (id : String) (items : List StreamItem) : List String :=
  items.filterMap fun item =>
    match item with
    | .message mid content =>
      if mid == id then
        match findPart "output_text" content with
        | some part => part.text
        | none => none
      else none
    | _ => none

/-- The delta arguments of the `stream:delta` events, in emission order. -/
def deltasOf (events : List AgentEvent) : List String :=
  events.filterMap fun ev =>
    match ev with
    | .streamDelta d _ => some d
    | _ => none

/-- Concatenation of a list of strings. -/
def joinAll : List String → String
  | [] => ""
  | s :: rest => s ++ joinAll rest

/-- `a` is a prefix of `b` and differs from it. -/
def strictExtends (a b : String) : Bool := a.data.isPrefixOf b.data && a != b

/-- Strictly prefix-growing sequence of texts. -/
def strictPrefixGrowingB : List String → Bool
  | [] => true
  | [_] => true
  | a :: b :: rest => strictExtends a b && strictPrefixGrowingB (b :: rest)

def isMessageItem : StreamItem → Bool
  | .message _ _ => true
  | _ => false

/-! ## Helper lemmas about the stream reducer -/

theorem deltasOf_append (a b : List AgentEvent) :
    deltasOf (a ++ b) = deltasOf a ++ deltasOf b := by
  simp [deltasOf, List.filterMap_append]

theorem strAppend_assoc (a b c : String) : a ++ b ++ c = a ++ (b ++ c) :=
  String.ext (by simp)

/-- When `a` is a prefix of `b`, appending the slice of `b` from the length
of `a` reconstructs `b` (the delta arithmetic of the stream loop). -/
theorem append_jsSlice_of_prefix {a b : String} (h : a.data.isPrefixOf b.data = true) :
    a ++ jsSlice b a.length = b := by
  rcases List.isPrefixOf_iff_prefix.mp h with ⟨t, ht⟩
  apply String.ext
  rw [String.data_append]
  rw [show (jsSlice b a.length).data = b.data.drop a.data.length from rfl]
  rw [← ht, List.drop_left]

/-- Running the stream loop over message-only items whose texts grow by
prefix extension from the accumulator: the loop never throws, ends in the
last text, and the emitted deltas concatenate (after the starting
accumulator) to that last text. -/
theorem runStream_all_messages (parseJson : String → Option Json) :
    ∀ (items : List StreamItem) (acc : String),
      (∀ item ∈ items, isMessageItem item = true) →
      List.Chain' (fun a b : String => a.data.isPrefixOf b.data = true)
        (acc :: messageTexts items) →
      ∃ evs, runStream parseJson items acc
          = (evs, .ok ((messageTexts items).getLastD acc)) ∧
        acc ++ joinAll (deltasOf evs) = (messageTexts items).getLastD acc := by
  intro items
  induction items with
  | nil =>
    intro acc _ _
    exact ⟨[], rfl, by show acc ++ "" = acc; exact String.append_empty acc⟩
  | cons item rest ih =>
    intro acc hmsg hchain
    have hrest : ∀ i ∈ rest, isMessageItem i = true :=
      fun i hi => hmsg i (List.mem_cons_of_mem item hi)
    cases item with
    | functionCall n st a =>
      exact absurd (hmsg _ (List.mem_cons_self _ _)) (by simp [isMessageItem])
    | functionCallOutput c o =>
      exact absurd (hmsg _ (List.mem_cons_self _ _)) (by simp [isMessageItem])
    | reasoning c =>
      exact absurd (hmsg _ (List.mem_cons_self _ _)) (by simp [isMessageItem])
    | other t =>
      exact absurd (hmsg _ (List.mem_cons_self _ _)) (by simp [isMessageItem])
    | message id content =>
      rcases hfp : findPart "output_text" content with - | part
      · have htexts : messageTexts (StreamItem.message id content :: rest) = messageTexts rest := by
          simp [messageTexts, List.filterMap_cons, hfp]
        rw [htexts] at hchain ⊢
        obtain ⟨evs2, hrun2, hjoin2⟩ := ih acc hrest hchain
        refine ⟨.itemUpdate (.message id content) :: ([] ++ evs2), ?_, ?_⟩
        · simp [runStream, stepItem, hfp, hrun2]
        · simpa [deltasOf] using hjoin2
      · rcases hpt : part.text with - | newText
        · have htexts : messageTexts (StreamItem.message id content :: rest)
              = messageTexts rest := by
            simp [messageTexts, List.filterMap_cons, hfp, hpt]
          rw [htexts] at hchain ⊢
          obtain ⟨evs2, hrun2, hjoin2⟩ := ih acc hrest hchain
          refine ⟨.itemUpdate (.message id content) :: ([] ++ evs2), ?_, ?_⟩
          · simp [runStream, stepItem, hfp, hpt, hrun2]
          · simpa [deltasOf] using hjoin2
        · have htexts : messageTexts (StreamItem.message id content :: rest)
              = newText :: messageTexts rest := by
            simp [messageTexts, List.filterMap_cons, hfp, hpt]
          rw [htexts] at hchain ⊢
          rw [List.getLastD_cons]
          have hab : acc.data.isPrefixOf newText.data = true := (List.chain'_cons.mp hchain).1
          have hchain2 : List.Chain' (fun a b : String => a.data.isPrefixOf b.data = true)
              (newText :: messageTexts rest) := (List.chain'_cons.mp hchain).2
          obtain ⟨evs2, hrun2, hjoin2⟩ := ih newText hrest hchain2
          by_cases hne : newText = acc
          · subst hne
            refine ⟨.itemUpdate (.message id content) :: ([] ++ evs2), ?_, ?_⟩
            · simp [runStream, stepItem, hfp, hpt, hrun2]
            · simpa [deltasOf] using hjoin2
          · refine ⟨.itemUpdate (.message id content) ::
              ([.streamDelta (jsSlice newText acc.length) newText] ++ evs2), ?_, ?_⟩
            · simp [runStream, stepItem, hfp, hpt, hne, hrun2]
            · have hacc : acc ++ jsSlice newText acc.length = newText :=
                append_jsSlice_of_prefix hab
              calc acc ++ joinAll (deltasOf (AgentEvent.itemUpdate (.message id content) ::
                      ([.streamDelta (jsSlice newText acc.length) newText] ++ evs2)))
                  = acc ++ (jsSlice newText acc.length ++ joinAll (deltasOf evs2)) := by
                    simp [deltasOf, joinAll]
                _ = (acc ++ jsSlice newText acc.length) ++ joinAll (deltasOf evs2) :=
                    (strAppend_assoc _ _ _).symm
                _ = newText ++ joinAll (deltasOf evs2) := by rw [hacc]
                _ = (messageTexts rest).getLastD newText := hjoin2

theorem finishSend_result (messages1 : List Message) (pre streamEvents : List AgentEvent)
    (o : Except String String) :
    (finishSend messages1 pre streamEvents o).result = o := by
  cases o <;> rfl

theorem finishSend_sentInput (messages1 : List Message) (pre streamEvents : List AgentEvent)
    (o : Except String String) :
    (finishSend messages1 pre streamEvents o).sentInput = messages1 := by
  cases o <;> rfl

/-- The `input` of the provider call issued by `send` is always the history
with the new user message appended. -/
theorem send_sentInput (parseJson : String → Option Json) (history : List Message)
    (content : String) (pr : ProviderResult) :
    (send parseJson history content pr).sentInput = history ++ [⟨.user, content⟩] := by
  unfold send
  rw [finishSend_sentInput]

/-- The deltas emitted by `send` are exactly the deltas of its stream loop:
the surrounding lifecycle events contribute none. -/
theorem send_deltas (parseJson : String → Option Json) (history : List Message)
    (content : String) (pr : ProviderResult) :
    deltasOf (send parseJson history content pr).events
      = deltasOf (runStream parseJson pr.items "").1 := by
  unfold send
  cases hco : callOutcome (runStream parseJson pr.items "").2 pr.streamError pr.finalText with
  | error e => simp [finishSend, deltasOf_append, deltasOf]
  | ok t => simp [finishSend, deltasOf_append, deltasOf]

/-! ## Claims about the stream reducer and send -/

def mixedIdItems : List StreamItem :=
  [.message "A" (some [⟨"output_text", some "ab"⟩]),
   .message "B" (some [⟨"output_text", some "x"⟩])]

def mixedIdPr : ProviderResult := ⟨mixedIdItems, none, .ok "x"⟩

/-- Claim C1 counterexample: a stream whose message texts are strictly
prefix-growing per id, yet the concatenation of all emitted deltas ("ab")
differs from the final textSoFar of id "B" ("x"): the loop keeps one
accumulator for all ids, not one per id. -/
theorem per_id_accumulation_counterexample :
    (∀ id, strictPrefixGrowingB (textsForId id mixedIdItems) = true) ∧
    textsForId "B" mixedIdItems = ["x"] ∧
    joinAll (deltasOf (send (fun _ => none) [] "q" mixedIdPr).events) = "ab" ∧
    ("ab" : String) ≠ "x" := by
  refine ⟨?_, rfl, by decide, by decide⟩
  intro id
  by_cases hA : ("A" : String) = id
  · rw [← hA]; decide
  · by_cases hB : ("B" : String) = id
    · rw [← hB]; decide
    · simp [textsForId, mixedIdItems, List.filterMap_cons, hA, hB, strictPrefixGrowingB]

/-- Claim C1 (amended): the loop accumulates into a single variable, so for
every stream of message fragments whose texts are prefix-growing overall
(all ids merged), the concatenation of all emitted stream deltas equals the
last message text of the stream. -/
theorem stream_delta_concatenation (parseJson : String → Option Json)
    (history : List Message) (content : String) (pr : ProviderResult)
    (hmsg : ∀ item ∈ pr.items, isMessageItem item = true)
    (hchain : List.Chain' (fun a b : String => a.data.isPrefixOf b.data = true)
      ("" :: messageTexts pr.items)) :
    joinAll (deltasOf (send parseJson history content pr).events)
      = (messageTexts pr.items).getLastD "" := by
  obtain ⟨evs, hrun, hjoin⟩ := runStream_all_messages parseJson pr.items "" hmsg hchain
  rw [send_deltas, hrun]
  calc joinAll (deltasOf (evs, Except.ok ((messageTexts pr.items).getLastD "")).1)
      = "" ++ joinAll (deltasOf evs) := (String.empty_append _).symm
    _ = (messageTexts pr.items).getLastD "" := hjoin

def growingItems : List StreamItem :=
  [.message "m1" (some [⟨"output_text", some "He"⟩]),
   .message "m1" (some [⟨"output_text", some "Hell"⟩]),
   .message "m1" (some [⟨"output_text", some "Hello"⟩])]

def growingPr : ProviderResult := ⟨growingItems, none, .ok "Hello"⟩

/-- Witness for claim C1 (amended) on a concrete strictly growing stream. -/
theorem stream_delta_concatenation_witness :
    (joinAll (deltasOf (send (fun _ => none) [] "hi" growingPr).events)
      = (messageTexts growingItems).getLastD "") ∧
    (messageTexts growingItems).getLastD "" = "Hello" :=
  ⟨stream_delta_concatenation (fun _ => none) [] "hi" growingPr (by decide)
    (by
      rw [show messageTexts growingPr.items = ["He", "Hell", "Hello"] from rfl]
      exact List.chain'_cons.mpr ⟨rfl, List.chain'_cons.mpr ⟨rfl,
        List.chain'_cons.mpr ⟨rfl, List.chain'_singleton _⟩⟩⟩),
   by decide⟩

/-- Claim C2: whenever `send` fails, the history is exactly the old history
plus the already-appended user message (in particular no assistant message
is appended), an error event is emitted, the failure is returned, and any
subsequent `send` transmits the full history including the pending user
message. -/
theorem send_failure_preserves_history (parseJson : String → Option Json)
    (history : List Message) (content : String) (pr : ProviderResult) (e : String)
    (h : (send parseJson history content pr).result = .error e) :
    (send parseJson history content pr).history = history ++ [⟨.user, content⟩] ∧
    .errorEvent e ∈ (send parseJson history content pr).events ∧
    ((send parseJson history content pr).history.filter (fun m => m.role == .assistant)
      = history.filter (fun m => m.role == .assistant)) ∧
    (send parseJson history content pr).sentInput = history ++ [⟨.user, content⟩] ∧
    ∀ (content2 : String) (pr2 : ProviderResult),
      (send parseJson (send parseJson history content pr).history content2 pr2).sentInput
        = history ++ [⟨.user, content⟩] ++ [⟨.user, content2⟩] := by
  have hfilter : (history ++ [(⟨.user, content⟩ : Message)]).filter
      (fun m => m.role == .assistant) = history.filter (fun m => m.role == .assistant) := by
    simp [List.filter_append]
  have hsub : ∀ (content2 : String) (pr2 : ProviderResult),
      (send parseJson (history ++ [⟨.user, content⟩]) content2 pr2).sentInput
        = history ++ [⟨.user, content⟩] ++ [⟨.user, content2⟩] :=
    fun content2 pr2 => send_sentInput parseJson _ content2 pr2
  unfold send at h ⊢
  rw [finishSend_result] at h
  rw [h]
  refine ⟨rfl, ?_, hfilter, rfl, hsub⟩
  simp [finishSend]

def dropPr : ProviderResult :=
  ⟨[.message "m1" (some [⟨"output_text", some "He"⟩])], some "network drop", .error "unused"⟩

/-- Witness for claim C2: a send that streams one delta and then fails with
a simulated network drop. -/
theorem send_failure_preserves_history_witness :
    ((send (fun _ => none) [] "hi" dropPr).result = .error "network drop") ∧
    ((send (fun _ => none) [] "hi" dropPr).history = [] ++ [⟨.user, "hi"⟩] ∧
     .errorEvent "network drop" ∈ (send (fun _ => none) [] "hi" dropPr).events ∧
     ((send (fun _ => none) [] "hi" dropPr).history.filter (fun m => m.role == .assistant)
       = List.filter (fun m => m.role == .assistant) []) ∧
     (send (fun _ => none) [] "hi" dropPr).sentInput = [] ++ [⟨.user, "hi"⟩] ∧
     ∀ (content2 : String) (pr2 : ProviderResult),
       (send (fun _ => none) ((send (fun _ => none) [] "hi" dropPr).history) content2 pr2).sentInput
         = [] ++ [⟨.user, "hi"⟩] ++ [⟨.user, content2⟩]) :=
  ⟨rfl, send_failure_preserves_history (fun _ => none) [] "hi" dropPr "network drop" rfl⟩

/-- Claim C3 counterexample: on a prefix-invariant violation (accumulated
"ab", new text "x") the loop emits the delta "" — the slice of the new text
from the old length — not a delta covering the whole new text "x". -/
theorem whole_text_delta_counterexample :
    stepItem (fun _ => none) "ab" (.message "A" (some [⟨"output_text", some "x"⟩]))
      = .ok ("x", [.streamDelta "" "x"]) ∧ ("" : String) ≠ "x" :=
  ⟨rfl, by decide⟩

/-- Claim C3 (amended): on any message text that differs from the
accumulated text — prefix extension or not — the reducer step is defined
(never crashes), replaces the accumulated text with the new value, and
emits one delta equal to the slice of the new text from the previous
length (empty when the new text is not longer), not necessarily the whole
new text. -/
theorem replacement_on_any_divergence (parseJson : String → Option Json)
    (fullText : String) (id : String) (content : Option (List ContentPart))
    (part : ContentPart) (newText : String)
    (hfp : findPart "output_text" content = some part)
    (hpt : part.text = some newText)
    (hne : newText ≠ fullText) :
    stepItem parseJson fullText (.message id content)
      = .ok (newText, [.streamDelta (jsSlice newText fullText.length) newText]) := by
  simp [stepItem, hfp, hpt, hne]

/-- Witness for claim C3 (amended) at accumulated "ab" and new text "x". -/
theorem replacement_on_any_divergence_witness :
    stepItem (fun _ => none) "ab" (.message "A" (some [⟨"output_text", some "x"⟩]))
      = .ok ("x", [.streamDelta (jsSlice "x" ("ab" : String).length) "x"]) :=
  replacement_on_any_divergence (fun _ => none) "ab" "A"
    (some [⟨"output_text", some "x"⟩]) ⟨"output_text", some "x"⟩ "x" rfl rfl (by decide)

/-! ## getMessages as a fresh copy (claim C10)

JS arrays are mutable references, so aliasing is modelled with a tiny heap:
cells indexed by natural numbers, `readArr`/`writeArr` for element access
and in-place mutation, allocation at the end.  The agent owns one cell
(`msgsRef`) holding its history; `getMessages` evaluates
`return [...this.messages]`: it allocates a fresh cell holding a copy of
the history and returns the new reference. -/

def readArr (h : List (List Message)) (r : ℕ) : List Message := h.getD r []

def writeArr (h : List (List Message)) (r : ℕ) (v : List Message) : List (List Message) :=
  h.set r v

structure AgentState where
  heap : List (List Message)
  msgsRef : ℕ

/-- `getMessages(): return [...this.messages]` — the new state (heap grown
by the freshly allocated copy) and the returned reference. -/
def getMessages (s : AgentState) : AgentState × ℕ :=
  (⟨s.heap ++ [readArr s.heap s.msgsRef], s.msgsRef⟩, s.heap.length)

theorem readArr_append_lt (h : List (List Message)) (v : List Message) (r : ℕ)
    (hr : r < h.length) : readArr (h ++ [v]) r = readArr h r := by
  unfold readArr
  rw [List.getD_eq_getElem?_getD, List.getD_eq_getElem?_getD, List.getElem?_append_left hr]

theorem readArr_append_self (h : List (List Message)) (v : List Message) :
    readArr (h ++ [v]) h.length = v := by
  unfold readArr
  rw [List.getD_eq_getElem?_getD, List.getElem?_concat_length]
  rfl

theorem readArr_set_ne (h : List (List Message)) (r1 r2 : ℕ) (v : List Message)
    (hne : r1 ≠ r2) : readArr (writeArr h r1 v) r2 = readArr h r2 := by
  unfold readArr writeArr
  rw [List.getD_eq_getElem?_getD, List.getD_eq_getElem?_getD, List.getElem?_set_ne hne]

/-- Claim C10: `getMessages` returns a fresh reference holding a copy of the
history: the reference differs from the history cell, its contents equal the
history, writing through either reference leaves the other cell unchanged,
and a second `getMessages` returns element-wise equal contents. -/
theorem getMessages_fresh_copy (s : AgentState) (h : s.msgsRef < s.heap.length) :
    (getMessages s).2 ≠ s.msgsRef ∧
    (getMessages s).1.msgsRef = s.msgsRef ∧
    readArr (getMessages s).1.heap (getMessages s).2 = readArr s.heap s.msgsRef ∧
    (∀ v, readArr (writeArr (getMessages s).1.heap (getMessages s).2 v) s.msgsRef
        = readArr s.heap s.msgsRef) ∧
    (∀ v, readArr (writeArr (getMessages s).1.heap s.msgsRef v) (getMessages s).2
        = readArr (getMessages s).1.heap (getMessages s).2) ∧
    readArr (getMessages (getMessages s).1).1.heap (getMessages (getMessages s).1).2
      = readArr (getMessages s).1.heap (getMessages s).2 := by
  have hne : s.heap.length ≠ s.msgsRef := (Nat.ne_of_lt h).symm
  refine ⟨hne, rfl, readArr_append_self _ _, ?_, ?_, ?_⟩
  · intro v
    show readArr (writeArr (s.heap ++ [readArr s.heap s.msgsRef]) s.heap.length v)
        s.msgsRef = readArr s.heap s.msgsRef
    rw [readArr_set_ne _ _ _ _ hne, readArr_append_lt _ _ _ h]
  · intro v
    show readArr (writeArr (s.heap ++ [readArr s.heap s.msgsRef]) s.msgsRef v)
        s.heap.length = _
    rw [readArr_set_ne _ _ _ _ (Ne.symm hne)]
    rfl
  · show readArr ((s.heap ++ [readArr s.heap s.msgsRef]) ++
        [readArr (s.heap ++ [readArr s.heap s.msgsRef]) s.msgsRef])
        (s.heap ++ [readArr s.heap s.msgsRef]).length = _
    rw [readArr_append_self, readArr_append_lt _ _ _ h]
    exact (readArr_append_self _ _).symm

def singletonState : AgentState := ⟨[[⟨.user, "hi"⟩]], 0⟩

/-- Witness for claim C10 at a one-message history. -/
theorem getMessages_fresh_copy_witness :
    (getMessages singletonState).2 ≠ singletonState.msgsRef ∧
    (getMessages singletonState).1.msgsRef = singletonState.msgsRef ∧
    readArr (getMessages singletonState).1.heap (getMessages singletonState).2
      = readArr singletonState.heap singletonState.msgsRef ∧
    (∀ v, readArr (writeArr (getMessages singletonState).1.heap
        (getMessages singletonState).2 v) singletonState.msgsRef
        = readArr singletonState.heap singletonState.msgsRef) ∧
    (∀ v, readArr (writeArr (getMessages singletonState).1.heap
        singletonState.msgsRef v) (getMessages singletonState).2
        = readArr (getMessages singletonState).1.heap (getMessages singletonState).2) ∧
    readArr (getMessages (getMessages singletonState).1).1.heap
        (getMessages (getMessages singletonState).1).2
      = readArr (getMessages singletonState).1.heap (getMessages singletonState).2 :=
  getMessages_fresh_copy singletonState (by decide)

/-! ## Blended price helper (claim C8)

Modelled from the spec: `modelPricePer1M` is imported from `./models.ts` by
the CLI wizard and by the test file, but the models.ts under src does not
contain its definition — only its tests and callers are available.  Spec
section 4.3: blended price per million is
`(prompt_per_token + completion_per_token) × 1,000,000 / 2`, unknown (null)
when either component is absent or non-numeric, never substituting a
zero. -/
def modelPricePer1M (m : OpenRouterModel) : Option ℚ :=
  match asNumber (promptField m), asNumber (completionField m) with
  | some a, some b => some ((a.toQ + b.toQ) * 1000000 / 2)
  | _, _ => none

/-- Claim C8: the blended price of prompt 0.000001 and completion 0.000002
is 1.5; a model without pricing yields null; in general the result is null
exactly when a component is absent or non-numeric (never a substituted
zero), and otherwise the blend of the two per-token prices. -/
theorem modelPricePer1M_spec :
    (modelPricePer1M ⟨"provider/model-priced", none,
        some ⟨some "0.000001", some "0.000002", none, none⟩, none⟩ = some (3 / 2)) ∧
    (modelPricePer1M ⟨"provider/model-missing", none, none, none⟩ = none) ∧
    (∀ m, modelPricePer1M m = none ↔
      asNumber (promptField m) = none ∨ asNumber (completionField m) = none) ∧
    (∀ m a b, asNumber (promptField m) = some a → asNumber (completionField m) = some b →
      modelPricePer1M m = some ((a.toQ + b.toQ) * 1000000 / 2)) := by
  refine ⟨?_, rfl, ?_, ?_⟩
  · have h : modelPricePer1M ⟨"provider/model-priced", none,
        some ⟨some "0.000001", some "0.000002", none, none⟩, none⟩
        = some ((DecNum.toQ ⟨1, 6⟩ + DecNum.toQ ⟨2, 6⟩) * 1000000 / 2) := rfl
    rw [h]
    norm_num [DecNum.toQ]
  · intro m
    unfold modelPricePer1M
    rcases h1 : asNumber (promptField m) with - | a <;>
      rcases h2 : asNumber (completionField m) with - | b <;> simp
  · intro m a b h1 h2
    unfold modelPricePer1M
    rw [h1, h2]

/-! ## Error normalizer (claim C9)

The post-parse stage of `formatMaybeJsonError` (headless entry file,
lines 63-92): `JSON.parse` is a platform primitive, so the embedding starts
from the parsed `Json` value. -/

/-- JS property access `o?.k` on a parsed JSON value: the first field named
`k` of an object; `none` (undefined) for other shapes or a missing key. -/
def jsonGet : Json → String → Option Json
  | .obj fields, k => (fields.find? (fun f => f.1 == k)).map Prod.snd
  | _, _ => none

/-- JS truthiness of a possibly-undefined JSON value (`undefined`, `null`,
`false`, `0` and `""` are falsy). -/
def jsTruthy : Option Json → Bool
  | none => false
  | some .null => false
  | some (.bool b) => b
  | some (.num q) => !(q == 0)
  | some (.str s) => !(s == "")
  | some (.arr _) => true
  | some (.obj _) => true

/-- String interpolation `${v}` of a parsed JSON value.  The claims only
exercise string and numeric values; the display of composite values is
conventional. -/
def jsDisplay : Json → String
  | .null => "null"
  | .bool b => if b then "true" else "false"
  | .num q => toString q
  | .str s => s
  | .arr _ => ""
  | .obj _ => "[object Object]"

/-- One element as rendered by `Array.prototype.join` (null renders
empty). -/
def jsElemStr : Json → String
  | .null => ""
  | v => jsDisplay v

/-- `elems.join(', ')` -/
def joinComma : List Json → String
  | [] => ""
  | [v] => jsElemStr v
  | v :: rest => jsElemStr v ++ ", " ++ joinComma rest

/-- `lines.join('\n')` -/
def joinLines : List String → String
  | [] => ""
  | [s] => s
  | s :: rest => s ++ "\n" ++ joinLines rest

mutual

/-- `JSON.stringify` of a parsed JSON value (string escaping is not
modelled; no claim depends on this compact fallback). -/
def jsonStringify : Json → String
  | .null => "null"
  | .bool b => if b then "true" else "false"
  | .num q => toString q
  | .str s => "\x22" ++ s ++ "\x22"
  | .arr es => "[" ++ stringifyList es ++ "]"
  | .obj fs => "\x7b" ++ stringifyFields fs ++ "\x7d"

def stringifyList : List Json → String
  | [] => ""
  | [v] => jsonStringify v
  | v :: rest => jsonStringify v ++ "," ++ stringifyList rest

def stringifyFields : List (String × Json) → String
  | [] => ""
  | [(k, v)] => "\x22" ++ k ++ "\x22:" ++ jsonStringify v
  | (k, v) :: rest => "\x22" ++ k ++ "\x22:" ++ jsonStringify v ++ "," ++ stringifyFields rest

end

/-- The summary built by `formatMaybeJsonError` from the parsed JSON value:
`error.message` with an optional code suffix, then the optional
`requested_providers` line, then the `available_providers` line truncated
to 12 entries with an overflow counter; a compact one-liner for unknown
shapes. -/
def summarizeParsed (parsed : Json) : String :=
  let oe := jsonGet parsed "error"
  if jsTruthy (oe.bind (fun o => jsonGet o "message")) then
    let msg := (oe.bind (fun o => jsonGet o "message")).getD .null
    let codeStr := match oe.bind (fun o => jsonGet o "code") with
      | none => ""
      | some .null => ""
      | some c => " (code " ++ jsDisplay c ++ ")"
    let md := oe.bind (fun o => jsonGet o "metadata")
    let lines2 := match md.bind (fun o => jsonGet o "requested_providers") with
      | some (.arr rs) =>
        if rs.isEmpty then [] else ["requested_providers: " ++ joinComma rs]
      | _ => []
    let lines3 := match md.bind (fun o => jsonGet o "available_providers") with
      | some (.arr as) =>
        if as.isEmpty then []
        else ["available_providers: " ++ joinComma (as.take 12) ++
          (if 12 < as.length then " (+" ++ toString (as.length - 12) ++ " more)" else "")]
      | _ => []
    joinLines ([jsDisplay msg ++ codeStr] ++ lines2 ++ lines3)
  else jsonStringify parsed

/-- An error payload with a message and an `available_providers` list. -/
def mkErrorPayload (msg : String) (avail : List Json) : Json :=
  .obj [("error", .obj [("message", .str msg),
    ("metadata", .obj [("available_providers", .arr avail)])])]

/-- Claim C9: for a payload whose parsed JSON carries a (truthy) error
message and an `available_providers` list of n entries, the summary lists
exactly `min 12 n` entries — the first 12 — followed by an overflow counter
of `n - 12` when `n > 12`. -/
theorem available_providers_truncation (msg : String) (avail : List Json)
    (hmsg : msg ≠ "") (hne : avail ≠ []) :
    summarizeParsed (mkErrorPayload msg avail)
      = msg ++ "\n" ++ ("available_providers: " ++ joinComma (avail.take 12) ++
          (if 12 < avail.length then " (+" ++ toString (avail.length - 12) ++ " more)" else "")) ∧
    (avail.take 12).length = min 12 avail.length := by
  constructor
  · have hmsgb : (msg == "") = false := by simp [hmsg]
    have hav : avail.isEmpty = false := by simp [List.isEmpty_iff, hne]
    simp [summarizeParsed, mkErrorPayload, jsonGet, jsTruthy, jsDisplay, hmsgb, hav, joinLines]
  · simp [List.length_take]

def avail15 : List Json :=
  [.str "p1", .str "p2", .str "p3", .str "p4", .str "p5", .str "p6", .str "p7", .str "p8",
   .str "p9", .str "p10", .str "p11", .str "p12", .str "p13", .str "p14", .str "p15"]

/-- Witness for claim C9 with 15 providers: exactly 12 listed plus an
overflow count of 3. -/
theorem available_providers_truncation_witness :
    (summarizeParsed (mkErrorPayload "Provider error" avail15)
      = "Provider error" ++ "\n" ++ ("available_providers: " ++ joinComma (avail15.take 12) ++
          (if 12 < avail15.length then " (+" ++ toString (avail15.length - 12) ++ " more)"
           else "")) ∧
     (avail15.take 12).length = min 12 avail15.length) ∧
    joinComma (avail15.take 12) = "p1, p2, p3, p4, p5, p6, p7, p8, p9, p10, p11, p12" ∧
    (if 12 < avail15.length then " (+" ++ toString (avail15.length - 12) ++ " more)" else "")
      = " (+3 more)" ∧
    min 12 avail15.length = 12 :=
  ⟨available_providers_truncation "Provider error" avail15 (by decide) (List.cons_ne_nil _ _),
   by decide, by decide, by decide⟩

end OpenRouterAgent
